import Mathlib

/-!
# DevJourney — verification of the extraction / analysis pipeline

Shallow embedding of the DevJourney repository's core pipeline
(`src/devjourney/extractors/cursor_improved.py`,
`src/devjourney/analysis/processor.py`, `src/devjourney/analysis/main.py`,
`src/devjourney/analysis/insights.py`, `src/devjourney/database.py`,
`src/devjourney/models.py`) together with theorems settling the frozen
claims about it.

Conventions of the embedding:
* Python strings are Lean `String`s; most character work is done on
  `List Char`.  Python's `str.lower`, `str.strip`, `in` (substring),
  `re.search(r'\b…\b', …, re.IGNORECASE)` are translated by executable
  functions below.  All texts appearing in concrete inputs are ASCII, for
  which Lean's `Char.toLower` / `Char.isAlpha` / `Char.isWhitespace`
  agree with Python's behaviour.
* `datetime` values are abstract clock readings modelled as `Nat`; each
  call of `datetime.utcnow()` / `time.time()` in the source becomes an
  explicit parameter, successive readings being nondecreasing.
* Python floats `0.7, 0.8, 0.9` are modelled as `ℚ` (they are only
  constructed from decimal literals and compared).
* Effects on the SQLite store are modelled by explicit state passing; one
  `session.commit()` is one observable state.
-/

namespace DevJourney

/-! ## String utilities (Python `str` operations) -/

/-- Python `str.lower()` on a character list (ASCII). -/
def pyLowerL (l : List Char) : List Char := l.map Char.toLower

/-- Python `str.lower()`. -/
def pyLower (s : String) : String := ⟨pyLowerL s.toList⟩

/-- Python whitespace (`str.strip` default / regex `\s`), ASCII fragment. -/
def isWS (c : Char) : Bool := c.isWhitespace

/-- Python `str.strip()` on a character list. -/
def pyStripL (l : List Char) : List Char :=
  ((l.dropWhile isWS).reverse.dropWhile isWS).reverse

/-- Python `str.strip()`. -/
def pyStrip (s : String) : String := ⟨pyStripL s.toList⟩

/-- Case-insensitive character equality (ASCII), as under `re.IGNORECASE`. -/
def lcEq (a b : Char) : Bool := a.toLower == b.toLower

/-- Tests whether `needle` is a case-insensitive prefix of `hay`. -/
def prefixIC : List Char → List Char → Bool
  | [], _ => true
  | _ :: _, [] => false
  | k :: ks, t :: ts => lcEq k t && prefixIC ks ts

/-- Case-sensitive list prefix test. -/
def prefixCS : List Char → List Char → Bool
  | [], _ => true
  | _ :: _, [] => false
  | k :: ks, t :: ts => (k == t) && prefixCS ks ts

/-- Python `needle in hay` (exact substring) on character lists. -/
def subL (needle : List Char) : List Char → Bool
  | [] => needle.isEmpty
  | c :: rest => prefixCS needle (c :: rest) || subL needle rest

/-- Python `needle in hay` (exact substring). -/
def containsSub (needle hay : String) : Bool := subL needle.toList hay.toList

/-- Regex `\w` (ASCII fragment): letters, digits, underscore. -/
def isWordC (c : Char) : Bool := c.isAlphanum || c == '_'

/-- Word-character test on an optional character; a string edge counts as
non-word, as for the regex anchor `\b`. -/
def wordB : Option Char → Bool
  | some c => isWordC c
  | none => false

/-- One position of `re.search(r'\b<kw>\b', text, re.IGNORECASE)`: `kw`
matches at the head of `text`, `prev` being the character just before it.
`\b` holds where exactly one side is a word character. -/
def matchHere (kw text : List Char) (prev : Option Char) : Bool :=
  prefixIC kw text
    && (wordB prev != wordB kw.head?)
    && (wordB kw.getLast? != wordB (text.drop kw.length).head?)

/-- Scan of `re.search(r'\b<kw>\b', text, re.IGNORECASE)`. -/
def searchBFrom (kw : List Char) (prev : Option Char) : List Char → Bool
  | [] => matchHere kw [] prev
  | c :: rest => matchHere kw (c :: rest) prev || searchBFrom kw (some c) rest

/-- Truth of `re.search(r'\b' + re.escape(kw) + r'\b', text, re.IGNORECASE) is not None`, as used throughout `processor.py`. -/
def reWordSearch (kw text : String) : Bool :=
  searchBFrom kw.toList none text.toList

/-- First line: Python `s.split("\n")[0]`. -/
def firstLineL (l : List Char) : List Char := l.takeWhile (· != '\n')

/-! ## Exact score literals

Confidence scores are rationals; concrete ones are built with the raw
`Rat` constructor so that the kernel can evaluate comparisons on them
(the normalising `/` goes through `Nat.gcd`, which the kernel cannot
unfold). -/

/-- A rational given directly in lowest terms. -/
def qScore (n : Int) (d : Nat) (h1 : d ≠ 0) (h2 : n.natAbs.Coprime d) : ℚ :=
  ⟨n, d, h1, h2⟩

theorem qScore_eq_div (n : Int) (d : Nat) (h1 : d ≠ 0) (h2 : n.natAbs.Coprime d) :
    qScore n d h1 h2 = (n : ℚ) / d := by
  rw [qScore, Rat.mk'_eq_divInt, Rat.divInt_eq_div]
  norm_cast

/-- The float literal `0.7` of the source. -/
def conf07 : ℚ := qScore 7 10 (by norm_num) (by norm_num)
/-- The float literal `0.8` of the source. -/
def conf08 : ℚ := qScore 4 5 (by norm_num) (by norm_num)
/-- The float literal `0.9` of the source. -/
def conf09 : ℚ := qScore 9 10 (by norm_num) (by norm_num)

theorem conf07_eq : conf07 = 7/10 := by rw [conf07, qScore_eq_div]; norm_num
theorem conf08_eq : conf08 = 8/10 := by rw [conf08, qScore_eq_div]; norm_num
theorem conf09_eq : conf09 = 9/10 := by rw [conf09, qScore_eq_div]; norm_num

/-! ## Data model (`models.py`) -/

/-- Enum `ConversationSource` (`models.py`). -/
inductive ConversationSource | claude | cursor
deriving DecidableEq

/-- Enum `MessageRole` (`models.py`). -/
inductive MessageRole | user | assistant | system
deriving DecidableEq

/-- Enum `ContentType` (`models.py`). -/
inductive ContentType | text | code | image | file
deriving DecidableEq

/-- Enum `InsightType` (`models.py`). -/
inductive InsightType | problem_solution | learning | code_reference | project_reference
deriving DecidableEq

/-- Enum `InsightCategory` (`models.py`). -/
inductive InsightCategory
  | programming | devops | design | architecture | database | testing | other
deriving DecidableEq

/-- Model `ContentBlock` (`models.py`): one block of a message's `content_blocks`
JSON payload. -/
structure ContentBlock where
  btype : ContentType
  content : String
  language : Option String
deriving DecidableEq

/-- A code block as returned by `AnalysisProcessor._extract_code_blocks`
(`{"language": block.get("language", ""), "content": …}`; the stored
`language` of a normalized block is present but possibly `None`). -/
structure CodeBlock where
  language : Option String
  content : String
deriving DecidableEq

/-- Model `Message` as consumed by the analysis processor: role and content
blocks (the processor reads no other field). -/
structure Message where
  role : MessageRole
  content_blocks : List ContentBlock
deriving DecidableEq

/-- Model `Conversation` as consumed by the analysis processor: primary key and
ordered messages. -/
structure Conversation where
  id : Nat
  messages : List Message
deriving DecidableEq

/-- Model `Insight` (`models.py`): the fields written by the analysis processor.
`extracted_at` is an abstract clock reading. -/
structure Insight where
  conversation_id : Nat
  type : InsightType
  category : InsightCategory
  title : String
  content : String
  code_blocks : List CodeBlock
  confidence_score : ℚ
  extracted_at : Nat
deriving DecidableEq

/-! ## Technology extraction (`AnalysisProcessor._extract_technologies`) -/

/-- List `common_technologies` (`processor.py`). -/
def commonTechnologies : List String :=
  ["Python", "JavaScript", "TypeScript", "React", "Vue", "Angular",
   "Node.js", "Express", "Django", "Flask", "FastAPI",
   "SQL", "PostgreSQL", "MySQL", "MongoDB", "Redis",
   "Docker", "Kubernetes", "AWS", "Azure", "GCP",
   "Git", "GitHub", "GitLab", "Bitbucket",
   "HTML", "CSS", "Sass", "Less", "Tailwind",
   "REST", "GraphQL", "gRPC", "WebSockets",
   "TensorFlow", "PyTorch", "scikit-learn", "Pandas", "NumPy",
   "Java", "C#", "C++", "Go", "Rust", "Swift", "Kotlin"]

/-- Embeds `AnalysisProcessor._extract_technologies`: the technologies whose
word-boundary pattern occurs in `text`.  (The source materialises a
`set` and lists it in unspecified order; the order is irrelevant to every
consumer, which only counts list membership, so the source list order is
used here.) -/
def extractTechnologies (text : String) : List String :=
  commonTechnologies.filter (fun tech => reWordSearch tech text)

/-! ## Classifier (`AnalysisProcessor._determine_category`) -/

def programmingKeywords : List String :=
  ["code", "function", "class", "method", "variable", "algorithm",
   "programming", "syntax", "compiler", "interpreter", "runtime"]

def devopsKeywords : List String :=
  ["deploy", "pipeline", "ci/cd", "continuous integration", "continuous deployment",
   "infrastructure", "container", "docker", "kubernetes", "orchestration",
   "monitoring", "logging", "alerting", "scaling", "load balancing"]

def designKeywords : List String :=
  ["design", "ui", "ux", "user interface", "user experience",
   "wireframe", "mockup", "prototype", "responsive", "accessibility",
   "color", "typography", "layout", "component", "style guide"]

def architectureKeywords : List String :=
  ["architecture", "system design", "microservice", "monolith",
   "scalability", "reliability", "availability", "performance",
   "latency", "throughput", "consistency", "eventual consistency",
   "caching", "sharding", "partitioning", "replication"]

def databaseKeywords : List String :=
  ["database", "sql", "nosql", "query", "index", "transaction",
   "acid", "base", "schema", "migration", "orm", "join",
   "primary key", "foreign key", "constraint", "normalization"]

def testingKeywords : List String :=
  ["test", "unit test", "integration test", "e2e test", "end-to-end test",
   "mock", "stub", "spy", "assertion", "coverage", "tdd", "bdd",
   "regression", "smoke test", "load test", "stress test"]

/-- Embeds `sum(1 for kw in kws if re.search(r'\b'+re.escape(kw)+r'\b', text, re.IGNORECASE))`. -/
def countKw (kws : List String) (text : String) : Nat :=
  (kws.filter (fun kw => reWordSearch kw text)).length

def progTechs : List String :=
  ["Python", "JavaScript", "TypeScript", "Java", "C#", "C++", "Go", "Rust", "Swift", "Kotlin"]
def devopsTechs : List String :=
  ["Docker", "Kubernetes", "AWS", "Azure", "GCP", "Jenkins", "CircleCI", "GitHub Actions"]
def designTechs : List String :=
  ["HTML", "CSS", "Sass", "Less", "Tailwind", "Bootstrap", "Material-UI"]
def archTechs : List String :=
  ["REST", "GraphQL", "gRPC", "WebSockets", "Kafka", "RabbitMQ"]
def dbTechs : List String :=
  ["SQL", "PostgreSQL", "MySQL", "MongoDB", "Redis", "Elasticsearch"]
def testTechs : List String :=
  ["Jest", "Mocha", "Chai", "Cypress", "Selenium", "JUnit", "pytest"]

/-- The six per-category match counters of `_determine_category`. -/
structure CatCounts where
  programming : Nat
  devops : Nat
  design : Nat
  architecture : Nat
  database : Nat
  testing : Nat
deriving DecidableEq

/-- The `for tech in technologies` `if/elif` chain of
`_determine_category`, bumping the first matching category's counter. -/
def techBump (c : CatCounts) (tech : String) : CatCounts :=
  if tech ∈ progTechs then { c with programming := c.programming + 1 }
  else if tech ∈ devopsTechs then { c with devops := c.devops + 1 }
  else if tech ∈ designTechs then { c with design := c.design + 1 }
  else if tech ∈ archTechs then { c with architecture := c.architecture + 1 }
  else if tech ∈ dbTechs then { c with database := c.database + 1 }
  else if tech ∈ testTechs then { c with testing := c.testing + 1 }
  else c

/-- The `counts` dict of `_determine_category`, in its insertion order. -/
def categoryCounts (text : String) (technologies : List String) :
    List (InsightCategory × Nat) :=
  let base : CatCounts :=
    { programming := countKw programmingKeywords text
      devops := countKw devopsKeywords text
      design := countKw designKeywords text
      architecture := countKw architectureKeywords text
      database := countKw databaseKeywords text
      testing := countKw testingKeywords text }
  let c := technologies.foldl techBump base
  [(InsightCategory.programming, c.programming),
   (InsightCategory.devops, c.devops),
   (InsightCategory.design, c.design),
   (InsightCategory.architecture, c.architecture),
   (InsightCategory.database, c.database),
   (InsightCategory.testing, c.testing)]

/-- Python `max(items, key=lambda x: x[1])` over a nonempty list: keeps
the current best unless a later item's key is strictly greater, hence
returns the first item attaining the maximal key. -/
def pyMaxBySnd (hd : InsightCategory × Nat) (tl : List (InsightCategory × Nat)) :
    InsightCategory × Nat :=
  tl.foldl (fun best x => if best.2 < x.2 then x else best) hd

/-- Embeds `AnalysisProcessor._determine_category`. -/
def determineCategory (text : String) (technologies : List String) : InsightCategory :=
  match categoryCounts text technologies with
  | [] => InsightCategory.other
  | hd :: tl =>
    let maxCategory := pyMaxBySnd hd tl
    if maxCategory.2 = 0 then InsightCategory.other else maxCategory.1

/-! ## Extraction passes (`AnalysisProcessor._extract_*`) -/

/-- Embeds `AnalysisProcessor._extract_code_blocks`: the CODE blocks of a
message, as `{"language": …, "content": …}` records. -/
def extractCodeBlocks (m : Message) : List CodeBlock :=
  m.content_blocks.filterMap (fun b =>
    if b.btype = ContentType.code then some ⟨b.language, b.content⟩ else none)

/-- The accumulation `text += block.get("content", "") + "\n"` over the
TEXT blocks of a message. -/
def textOf (m : Message) : String :=
  m.content_blocks.foldl
    (fun acc b => if b.btype = ContentType.text then acc ++ b.content ++ "\n" else acc) ""

/-- The user/assistant pairing loop of `_extract_problem_solution`:
each USER message is remembered and paired with the next ASSISTANT
message; SYSTEM messages are skipped. -/
def pairMessages (cur : Option Message) : List Message → List (Message × Message)
  | [] => []
  | m :: rest =>
    if m.role = MessageRole.user then pairMessages (some m) rest
    else if m.role = MessageRole.assistant then
      match cur with
      | some u => (u, m) :: pairMessages none rest
      | none => pairMessages none rest
    else pairMessages cur rest

/-- List `problem_indicators` (`processor.py`). -/
def problemIndicators : List String :=
  ["how do i", "how to", "what is", "why does", "can you explain",
   "help me", "i'm stuck", "i am stuck", "not working", "error",
   "problem", "issue", "bug", "fix", "solve", "solution"]

/-- The body of the pair-processing loop of
`AnalysisProcessor._extract_problem_solution`: the insight emitted for
one (USER, ASSISTANT) message pair, if any. -/
def pairInsight (cid now : Nat) (u a : Message) : Option Insight :=
  let userText := textOf u
  let assistantText := textOf a
  if pyStrip userText = "" ∨ pyStrip assistantText = "" then none
  else if problemIndicators.any (fun ind => containsSub ind (pyLower userText)) then
    let codeBlocks := extractCodeBlocks a
    let technologies := extractTechnologies (userText ++ " " ++ assistantText)
    let category := determineCategory (userText ++ " " ++ assistantText) technologies
    let title := String.mk ((firstLineL (pyStripL userText.toList)).take 100)
    let content := "Problem:\n" ++ pyStrip userText ++ "\n\nSolution:\n" ++ pyStrip assistantText
    some { conversation_id := cid, type := InsightType.problem_solution,
           category := category, title := title, content := content,
           code_blocks := codeBlocks,
           confidence_score := if codeBlocks.length > 0 then conf09 else conf07,
           extracted_at := now }
  else none

/-- Embeds `AnalysisProcessor._extract_problem_solution`. -/
def extractProblemSolution (now : Nat) (conv : Conversation) : List Insight :=
  (pairMessages none conv.messages).filterMap (fun p => pairInsight conv.id now p.1 p.2)

/-- List `explanation_indicators` (`processor.py`). -/
def explanationIndicators : List String :=
  ["is a", "are a", "refers to", "means", "is defined as",
   "is used for", "are used for", "is responsible for",
   "works by", "functions by", "operates by",
   "in summary", "to summarize", "in conclusion",
   "the key concept", "the main idea", "the important thing"]

/-- Embeds `AnalysisProcessor._extract_learnings`. -/
def extractLearnings (now : Nat) (conv : Conversation) : List Insight :=
  conv.messages.foldl (fun acc m =>
    if m.role ≠ MessageRole.assistant then acc else
    let assistantText := textOf m
    if pyStrip assistantText = "" then acc else
    acc ++ ((assistantText.splitOn "\n\n").filterMap (fun paragraph =>
      if (pyStrip paragraph).length < 100 then none
      else if explanationIndicators.any (fun ind => containsSub ind (pyLower paragraph)) then
        let technologies := extractTechnologies paragraph
        let category := determineCategory paragraph technologies
        let firstSentence := ((pyStrip paragraph).splitOn ".").headD ""
        let title := String.mk (firstSentence.toList.take 100)
          ++ (if firstSentence.length > 100 then "..." else "")
        some { conversation_id := conv.id, type := InsightType.learning,
               category := category, title := title, content := pyStrip paragraph,
               code_blocks := extractCodeBlocks m, confidence_score := conf08,
               extracted_at := now }
      else none))) []

/-- Embeds `AnalysisProcessor._extract_code_references`. -/
def extractCodeReferences (now : Nat) (conv : Conversation) : List Insight :=
  conv.messages.foldl (fun acc m =>
    if m.role ≠ MessageRole.assistant then acc else
    let cbs := extractCodeBlocks m
    if cbs.isEmpty then acc else
    let assistantText := textOf m
    acc ++ cbs.filterMap (fun cb =>
      let lang := cb.language.getD ""
      let code := cb.content
      if pyStrip code = "" then none else
      let technologies :=
        (if lang ≠ "" then [lang] else []) ++ extractTechnologies (assistantText ++ " " ++ code)
      let category := determineCategory (assistantText ++ " " ++ code) technologies
      let title := if lang ≠ "" then "Code snippet: " ++ lang else "Code snippet"
      let context := m.content_blocks.foldl (fun ctx b =>
        if b.btype = ContentType.text then
          (if ctx.length < 500 then ctx ++ b.content ++ "\n" else ctx)
        else ctx) ""
      some { conversation_id := conv.id, type := InsightType.code_reference,
             category := category, title := title, content := pyStrip context,
             code_blocks := [cb], confidence_score := conf09, extracted_at := now })) []

/-! ### Project-reference regexes (`_extract_project_references`)

The three `re.finditer` patterns are translated literally: `re.IGNORECASE`
turns `[A-Z][a-z]+` into "two or more ASCII letters"; greedy repetition
with backtracking is realised by trying candidate parses longest-first;
there are no `\b` anchors in the source patterns, so none appear here. -/

def spanP (p : Char → Bool) (l : List Char) : List Char × List Char :=
  (l.takeWhile p, l.dropWhile p)

/-- One `\s+[A-Z][a-z]+` repetition item of the capture group. -/
def parseItem (l : List Char) : Option (List Char × List Char) :=
  let (ws, r1) := spanP isWS l
  if ws.isEmpty then none else
  let (w, r2) := spanP Char.isAlpha r1
  if w.length < 2 then none else some (ws ++ w, r2)

/-- All parses of `(?:\s+[A-Z][a-z]+)*` starting at `l`, greedy
(longest) first; the fuel bounds the recursion and `l.length` always
suffices since each item consumes at least one character. -/
def starStates : Nat → List Char → List (List Char × List Char)
  | 0, l => [([], l)]
  | fuel + 1, l =>
    match parseItem l with
    | none => [([], l)]
    | some (item, rest) =>
      ((starStates fuel rest).map (fun s => (item ++ s.1, s.2))) ++ [([], l)]

/-- All parses of the capture group `([A-Z][a-z]+(?:\s+[A-Z][a-z]+)*)`,
greedy first, as (captured text, remaining input). -/
def parseCapture (l : List Char) : List (List Char × List Char) :=
  let (w0, r1) := spanP Char.isAlpha l
  if w0.length < 2 then [] else
  (starStates r1.length r1).map (fun s => (w0 ++ s.1, s.2))

/-- Regex `\s+`: consumed length and remainder, or failure. -/
def wsThen (l : List Char) : Option (Nat × List Char) :=
  let (ws, r) := spanP isWS l
  if ws.isEmpty then none else some (ws.length, r)

/-- The noun alternation `(?:project|app|application|website|service|platform|system|tool)`,
first alternative wins; returns the consumed length. -/
def nounTriggers : List String :=
  ["project", "app", "application", "website", "service", "platform", "system", "tool"]

def nounLen (l : List Char) : Option Nat :=
  nounTriggers.findSome? (fun n => if prefixIC n.toList l then some n.length else none)

/-- Pattern 1: `(?:my|our|the)\s+([A-Z][a-z]+(?:\s+[A-Z][a-z]+)*)\s+(?:project|…|tool)`.
Returns (capture, total match length) for a match anchored at `l`. -/
def tryP1 (l : List Char) : Option (List Char × Nat) :=
  ["my", "our", "the"].findSome? (fun trig =>
    if prefixIC trig.toList l then
      match wsThen (l.drop trig.length) with
      | none => none
      | some (w1, r1) =>
        (parseCapture r1).findSome? (fun s =>
          match wsThen s.2 with
          | none => none
          | some (w2, r2) =>
            match nounLen r2 with
            | none => none
            | some nl => some (s.1, trig.length + w1 + s.1.length + w2 + nl))
    else none)

/-- Pattern 2: `(?:working on|building|developing|creating)\s+(?:a|an|the)\s+([A-Z][a-z]+(?:\s+[A-Z][a-z]+)*)`. -/
def tryP2 (l : List Char) : Option (List Char × Nat) :=
  ["working on", "building", "developing", "creating"].findSome? (fun trig =>
    if prefixIC trig.toList l then
      match wsThen (l.drop trig.length) with
      | none => none
      | some (w1, r1) =>
        ["a", "an", "the"].findSome? (fun art =>
          if prefixIC art.toList r1 then
            match wsThen (r1.drop art.length) with
            | none => none
            | some (w2, r2) =>
              match (parseCapture r2).head? with
              | none => none
              | some s => some (s.1, trig.length + w1 + art.length + w2 + s.1.length)
          else none)
    else none)

/-- Pattern 3: `(?:project|…|tool)\s+called\s+([A-Z][a-z]+(?:\s+[A-Z][a-z]+)*)`. -/
def tryP3 (l : List Char) : Option (List Char × Nat) :=
  nounTriggers.findSome? (fun noun =>
    if prefixIC noun.toList l then
      match wsThen (l.drop noun.length) with
      | none => none
      | some (w1, r1) =>
        if prefixIC "called".toList r1 then
          match wsThen (r1.drop 6) with
          | none => none
          | some (w2, r2) =>
            match (parseCapture r2).head? with
            | none => none
            | some s => some (s.1, noun.length + w1 + 6 + w2 + s.1.length)
        else none
    else none)

/-- Embeds `re.finditer`: scan left to right, non-overlapping, resuming after
each match. -/
def findIterGo (tryAt : List Char → Option (List Char × Nat)) :
    List Char → List (List Char)
  | [] => []
  | c :: rest =>
    match tryAt (c :: rest) with
    | some (cap, len) => cap :: findIterGo tryAt (rest.drop (len - 1))
    | none => findIterGo tryAt rest
termination_by l => l.length
decreasing_by
  · simp only [List.length_cons, List.length_drop]
    omega
  · simp only [List.length_cons]
    omega

/-- The `potential_projects` list: captures of the three patterns, in
pattern order. -/
def projectMatches (text : List Char) : List (List Char) :=
  findIterGo tryP1 text ++ findIterGo tryP2 text ++ findIterGo tryP3 text

/-- First-occurrence deduplication.  (The source iterates
`set(potential_projects)`, whose order Python leaves unspecified; no
consumer of the result depends on the order.) -/
def dedupFirst (l : List String) : List String :=
  l.foldl (fun acc x => if x ∈ acc then acc else acc ++ [x]) []

/-- Embeds `AnalysisProcessor._extract_project_references`. -/
def extractProjectReferences (now : Nat) (conv : Conversation) : List Insight :=
  let allText := conv.messages.foldl (fun acc m =>
    m.content_blocks.foldl
      (fun a b => if b.btype = ContentType.text then a ++ b.content ++ "\n" else a) acc) ""
  let names := dedupFirst
    (((projectMatches allText.toList).map String.mk).filter (fun n => n.length > 3))
  names.map (fun name =>
    { conversation_id := conv.id, type := InsightType.project_reference,
      category := determineCategory allText (extractTechnologies allText),
      title := "Project: " ++ name,
      content := "Reference to project: " ++ name ++ "\n\nContext:\n"
        ++ String.mk (allText.toList.take 500) ++ "...",
      code_blocks := [], confidence_score := conf07, extracted_at := now })

/-- The concatenation of the four passes, as in
`AnalysisProcessor.process_conversation`. -/
def extractAll (now : Nat) (conv : Conversation) : List Insight :=
  extractProblemSolution now conv ++ extractLearnings now conv
    ++ extractCodeReferences now conv ++ extractProjectReferences now conv

/-! ## The insight store (`database.py` / `processor.py` / `insights.py`)

The `insight` table is a list of rows; one committed write is one list
extension.  `Database.get_items(model, **filters)` applies an equality
`WHERE` clause for every filter key that is an attribute of the model
class and **silently ignores every other key**. -/

/-- A value usable in a `get_items` keyword filter. -/
inductive FilterValue
  | nat (n : Nat)
  | str (s : String)
  | rat (q : ℚ)
  | itype (t : InsightType)
  | icat (c : InsightCategory)
  | bool (b : Bool)
deriving DecidableEq

/-- Embeds `hasattr(Insight, attr)`: the columns and relationships of the
`Insight` model class (`models.py`). -/
def insightHasAttr (a : String) : Bool :=
  a ∈ ["id", "conversation_id", "type", "category", "title", "content",
       "code_blocks", "confidence_score", "extracted_at", "notion_page_id",
       "last_synced", "conversation", "technologies"]

/-- Embeds `getattr(Insight, attr) == value` for one row, for the comparable
columns (the remaining attributes are never used as filters by the
modelled call sites). -/
def insightAttrEq (i : Insight) (a : String) (v : FilterValue) : Bool :=
  if a = "conversation_id" then v = FilterValue.nat i.conversation_id
  else if a = "type" then v = FilterValue.itype i.type
  else if a = "category" then v = FilterValue.icat i.category
  else if a = "title" then v = FilterValue.str i.title
  else if a = "content" then v = FilterValue.str i.content
  else if a = "confidence_score" then v = FilterValue.rat i.confidence_score
  else if a = "extracted_at" then v = FilterValue.nat i.extracted_at
  else false

/-- Embeds `Database.get_items(Insight, **filters)`: conjunction of equality
clauses over the filter keys that are `Insight` attributes; unknown keys
are dropped. -/
def getItems (store : List Insight) (filters : List (String × FilterValue)) :
    List Insight :=
  store.filter (fun i => filters.all (fun kv => !insightHasAttr kv.1 || insightAttrEq i kv.1 kv.2))

/-- The duplicate probe of `process_conversation`:
`db.get_items(Insight, conversation_id=…, type=…, title=…)`. -/
def existingInsights (i : Insight) (store : List Insight) : List Insight :=
  getItems store
    [("conversation_id", FilterValue.nat i.conversation_id),
     ("type", FilterValue.itype i.type),
     ("title", FilterValue.str i.title)]

/-- The storage loop of `process_conversation` (lines 510–552): each
surviving candidate is skipped if an insight with the same
`(conversation_id, type, title)` exists, otherwise committed via
`db.add_item`.  The very next statement reads `insight.content_blocks`,
an attribute the `Insight` model does not have (its field is
`code_blocks`), so an `AttributeError` is raised immediately after the
first successful insert and re-raised as `AnalysisProcessorError`;
the loop completes normally (returning `[]`) only when every candidate
is a duplicate. -/
def storeInsights : List Insight → List Insight → List Insight × Except Unit (List Insight)
  | [], store => (store, Except.ok [])
  | i :: rest, store =>
    if (existingInsights i store).isEmpty then
      (store ++ [i], Except.error ())
    else storeInsights rest store

/-- Embeds `AnalysisProcessor.process_conversation` with the four extraction
passes abstracted: the source wraps all four calls in a single
`try`, so a pass that raises makes the whole conversation fail before
anything is filtered or stored.  An erroring pass function models an
exception raised inside that pass. -/
def processConversationWith
    (p1 p2 p3 p4 : Conversation → Except Unit (List Insight)) (thr : ℚ)
    (conv : Conversation) (store : List Insight) :
    List Insight × Except Unit (List Insight) :=
  match (do
    let a ← p1 conv
    let b ← p2 conv
    let c ← p3 conv
    let d ← p4 conv
    Except.ok (a ++ b ++ c ++ d) : Except Unit (List Insight)) with
  | Except.error e => (store, Except.error e)
  | Except.ok all =>
    storeInsights (all.filter (fun i => decide (thr ≤ i.confidence_score))) store

/-- Embeds `AnalysisProcessor.process_conversation` itself: the four heuristic
passes of `processor.py`, confidence filtering against
`min_confidence_threshold`, dedup, and storage. -/
def processConversation (now : Nat) (thr : ℚ) (conv : Conversation)
    (store : List Insight) : List Insight × Except Unit (List Insight) :=
  processConversationWith
    (fun c => Except.ok (extractProblemSolution now c))
    (fun c => Except.ok (extractLearnings now c))
    (fun c => Except.ok (extractCodeReferences now c))
    (fun c => Except.ok (extractProjectReferences now c))
    thr conv store

/-- The batch loop of `process_new_conversations` (`analysis/main.py`):
conversations are processed in order inside one `try`; an
`AnalysisProcessorError` from any conversation propagates (as
`AnalysisError`) and the remaining conversations are not processed. -/
def processBatchWith
    (p1 p2 p3 p4 : Conversation → Except Unit (List Insight)) (thr : ℚ) :
    List Conversation → List Insight → List Insight × Except Unit Unit
  | [], store => (store, Except.ok ())
  | c :: rest, store =>
    match processConversationWith p1 p2 p3 p4 thr c store with
    | (store', Except.error e) => (store', Except.error e)
    | (store', Except.ok _) => processBatchWith p1 p2 p3 p4 thr rest store'

deriving instance DecidableEq for Except

/-! ## The insight read surface (`insights.py`) -/

/-- Embeds `get_insights` (`analysis/insights.py`): builds the keyword filters
(`type`, `category`, `conversation_id` plus the pseudo-keys
`extracted_at_gte`, `confidence_score_gte`, `content_contains`) and
forwards them — together with `limit`, `offset`, `order_by`,
`order_desc` — as keyword arguments of `Database.get_items`.
Falsy parameters (`None`, `0`, `""`) are not added, as in the source.
The clock is abstract: `days` is subtracted directly from `now`. -/
def getInsights (insightType : Option InsightType) (category : Option InsightCategory)
    (conversationId : Option Nat) (days : Option Nat) (limit offset : Nat)
    (searchTerm : Option String) (minConfidence : ℚ) (now : Nat)
    (store : List Insight) : List Insight :=
  let fp : List (String × FilterValue) :=
    (match insightType with
     | some t => [("type", FilterValue.itype t)]
     | none => [])
    ++ (match category with
     | some c => [("category", FilterValue.icat c)]
     | none => [])
    ++ (match conversationId with
     | some cid => [("conversation_id", FilterValue.nat cid)]
     | none => [])
    ++ (match days with
     | some d => if d ≠ 0 then [("extracted_at_gte", FilterValue.nat (now - d))] else []
     | none => [])
    ++ (if minConfidence ≠ 0 then [("confidence_score_gte", FilterValue.rat minConfidence)] else [])
    ++ (match searchTerm with
     | some s => if s ≠ "" then [("content_contains", FilterValue.str s)] else []
     | none => [])
  getItems store
    (fp ++ [("limit", FilterValue.nat limit), ("offset", FilterValue.nat offset),
            ("order_by", FilterValue.str "extracted_at"),
            ("order_desc", FilterValue.bool true)])

/-! ## The conversation store and ingestion (`extractors/cursor_improved.py`)

`extract_conversations` iterates the normalized conversation dicts,
probes the store by `(source=CURSOR, source_id)`, and on a miss commits
the `Conversation` row with `db.add_item` (one transaction) and then the
`Message` rows with `db.add_items` (a second transaction).  Each commit
is one observable store state; `processBlob` returns the final state and
the list of states committed for that blob. -/

/-- A normalized content block, as produced by `_normalize_message`
(`{"type": …, "content": …, "language": …}`). -/
structure NormBlock where
  btype : String
  content : String
  language : Option String
deriving DecidableEq

/-- A normalized message dict (`{"role": …, "timestamp": …, "content": […]}`). -/
structure NormMsg where
  role : String
  timestamp : Nat
  content : List NormBlock
deriving DecidableEq

/-- A normalized conversation dict, as produced by
`_normalize_conversation`. -/
structure NormConv where
  id : String
  title : String
  start_time : Nat
  end_time : Nat
  messages : List NormMsg
deriving DecidableEq

/-- A persisted `conversation` table row (`models.py`). -/
structure ConvRow where
  id : Nat
  source : ConversationSource
  source_id : String
  title : String
  start_time : Nat
  end_time : Option Nat
deriving DecidableEq

/-- A persisted `message` table row (`models.py`). -/
structure MsgRow where
  conversation_id : Nat
  role : MessageRole
  timestamp : Nat
  content_blocks : List ContentBlock
deriving DecidableEq

/-- The SQLite store as seen by the extractor: the two tables and the
next autoincrement key. -/
structure DBStore where
  convs : List ConvRow
  msgs : List MsgRow
  nextId : Nat
deriving DecidableEq

/-- The role-string mapping of the message loop of
`extract_conversations` (lines 602–609). -/
def roleOfStr (r : String) : MessageRole :=
  let rl := pyLower r
  if rl = "user" ∨ rl = "human" then MessageRole.user
  else if rl = "assistant" ∨ rl = "ai" ∨ rl = "bot" then MessageRole.assistant
  else MessageRole.system

/-- The block-type mapping of the content-block loop of
`extract_conversations` (lines 619–630). -/
def ctypeOfStr (t : String) : ContentType :=
  let tl := pyLower t
  if tl = "text" then ContentType.text
  else if tl = "code" then ContentType.code
  else if tl = "image" then ContentType.image
  else if tl = "file" then ContentType.file
  else ContentType.text

/-- Builds `ContentBlock(type=…, content=…, language=… if CODE else None)`. -/
def toContentBlock (b : NormBlock) : ContentBlock :=
  let bt := ctypeOfStr b.btype
  ⟨bt, b.content, if bt = ContentType.code then b.language else none⟩

/-- The `Message` row built for one normalized message dict. -/
def toMsgRow (cid : Nat) (m : NormMsg) : MsgRow :=
  ⟨cid, roleOfStr m.role, m.timestamp, m.content.map toContentBlock⟩

/-- The existence probe
`db.get_items(Conversation, source=ConversationSource.CURSOR, source_id=conv_data["id"])`. -/
def convHits (s : DBStore) (sid : String) : List ConvRow :=
  s.convs.filter (fun c => decide (c.source = ConversationSource.cursor ∧ c.source_id = sid))

/-- One iteration of the storage loop of `extract_conversations`
(lines 569–657): on a hit the existing record is reused and nothing is
written; on a miss the conversation row is committed, then (if the blob
has messages) the message rows are committed. -/
def processBlob (s : DBStore) (b : NormConv) : DBStore × List DBStore :=
  if (convHits s b.id).isEmpty then
    let row : ConvRow := ⟨s.nextId, ConversationSource.cursor, b.id, b.title,
      b.start_time, some b.end_time⟩
    let s1 : DBStore := ⟨s.convs ++ [row], s.msgs, s.nextId + 1⟩
    let msgs := b.messages.map (toMsgRow row.id)
    if msgs.isEmpty then (s1, [s1])
    else
      let s2 : DBStore := ⟨s1.convs, s1.msgs ++ msgs, s1.nextId⟩
      (s2, [s1, s2])
  else (s, [])

/-- The storage loop over all normalized conversations of one
`extract_conversations` call, with the committed-state trace. -/
def processBlobs (s : DBStore) : List NormConv → DBStore × List DBStore
  | [] => (s, [])
  | b :: rest =>
    let r1 := processBlob s b
    let r2 := processBlobs r1.1 rest
    (r2.1, r1.2 ++ r2.2)

/-- Final store after ingesting the list of normalized conversations. -/
def ingest (bs : List NormConv) (s : DBStore) : DBStore := (processBlobs s bs).1

/-- The observable (committed) intermediate states of an ingestion. -/
def ingestTrace (bs : List NormConv) (s : DBStore) : List DBStore := (processBlobs s bs).2

/-- The dedup key of a stored conversation. -/
def convKey (c : ConvRow) : ConversationSource × String := (c.source, c.source_id)

/-- At most one stored conversation per `(source, source_id)`. -/
def uniqKeys (s : DBStore) : Prop := (s.convs.map convKey).Nodup

/-- The message rows of one stored conversation. -/
def msgsOf (s : DBStore) (cid : Nat) : List MsgRow :=
  s.msgs.filter (fun m => m.conversation_id == cid)

/-! ## Normalization of the `{"human": …, "ai": …}` shape
(`CursorExtractor._normalize_conversation`, lines 310–384)

The blob has no `id`, `title`, `created_at`, `timestamp`, `start_time`,
`updated_at`, `last_message_timestamp` or `end_time` key.  The impure
readings made by the source are explicit arguments: `t0` for the
`int(time.time())` and `h` for the `hash(str(data))` of the derived id
(Python string hashing is randomized per process), `t1`/`t2` for the two
`datetime.utcnow()` readings taken for `start_time` and `end_time`;
the clock being monotone, `t1 ≤ t2` at any run. -/

/-- Embeds `_normalize_message` on a dict `{"role": r, "content": c, "timestamp": t}`
with string content. -/
def normalizeMsgSimple (role : String) (content : String) (ts : Nat) : NormMsg :=
  let rl := pyLower role
  ⟨(if rl = "user" ∨ rl = "human" then "user"
    else if rl = "assistant" ∨ rl = "ai" ∨ rl = "bot" then "assistant"
    else "system"),
   ts, [⟨"text", content, none⟩]⟩

/-- Stable placement of `m` before the first element with a timestamp
not smaller, as Python's stable `list.sort(key=…)` does for an element
originally to the left. -/
def insertByTs (m : NormMsg) : List NormMsg → List NormMsg
  | [] => [m]
  | x :: xs => if x.timestamp < m.timestamp then x :: insertByTs m xs else m :: x :: xs

/-- Embeds `messages.sort(key=lambda m: m.get("timestamp", ""))` (stable). -/
def sortByTs : List NormMsg → List NormMsg
  | [] => []
  | m :: rest => insertByTs m (sortByTs rest)

/-- Embeds `_normalize_conversation` specialised to a `{"human": h, "ai": a}`
blob (the shape of the claim): id derived from wall-clock time and the
randomized string hash, default title, one USER and one ASSISTANT
message (the normalized `end_time` is a nonempty ISO string, hence
always truthy in `end_time or self._get_timestamp(None)`). -/
def normalizeHumanAi (human ai : String) (t0 : Nat) (h : Int) (t1 t2 : Nat) : NormConv :=
  let convId := "cursor_" ++ toString t0 ++ "_" ++ toString h
  ⟨convId, "Untitled Conversation", t1, t2,
   sortByTs [normalizeMsgSimple "user" human t1, normalizeMsgSimple "assistant" ai t2]⟩

/-! ## Concrete inputs used by witnesses and counterexamples -/

/-- Scenario A, USER message: `"How do I fix this Python TypeError?"`. -/
def uA : Message := ⟨MessageRole.user, [⟨ContentType.text, "How do I fix this Python TypeError?", none⟩]⟩

/-- Scenario A, ASSISTANT message with one TEXT and one python CODE block. -/
def aA : Message :=
  ⟨MessageRole.assistant,
   [⟨ContentType.text, "Use a cast.", none⟩,
    ⟨ContentType.code, "x = int(y)", some "python"⟩]⟩

/-- Scenario A conversation. -/
def convA : Conversation := ⟨1, [uA, aA]⟩

/-- The insight Scenario A produces. -/
def insightA : Insight :=
  ⟨1, InsightType.problem_solution, InsightCategory.programming,
   "How do I fix this Python TypeError?",
   "Problem:\nHow do I fix this Python TypeError?\n\nSolution:\nUse a cast.",
   [⟨some "python", "x = int(y)"⟩], conf09, 0⟩

/-- A conversation producing two problem/solution candidates of
confidences 0.7 and 0.9 and nothing from the other passes (the second
assistant reply carries a whitespace-only code block, which raises the
pair confidence to 0.9 but is skipped by the code-reference pass). -/
def conv4 : Conversation :=
  ⟨7, [⟨MessageRole.user, [⟨ContentType.text, "Error in step one?", none⟩]⟩,
       ⟨MessageRole.assistant, [⟨ContentType.text, "Try again.", none⟩]⟩,
       ⟨MessageRole.user, [⟨ContentType.text, "Bug in step two?", none⟩]⟩,
       ⟨MessageRole.assistant, [⟨ContentType.text, "Use patch two.", none⟩,
                                ⟨ContentType.code, " ", some "python"⟩]⟩]⟩

/-- The 0.7-confidence candidate of `conv4`. -/
def ips1 : Insight :=
  ⟨7, InsightType.problem_solution, InsightCategory.other, "Error in step one?",
   "Problem:\nError in step one?\n\nSolution:\nTry again.", [], conf07, 0⟩

/-- The 0.9-confidence candidate of `conv4`. -/
def ips2 : Insight :=
  ⟨7, InsightType.problem_solution, InsightCategory.other, "Bug in step two?",
   "Problem:\nBug in step two?\n\nSolution:\nUse patch two.",
   [⟨some "python", " "⟩], conf09, 0⟩

/-- Threshold `0.6`. -/
def thrLow : ℚ := qScore 3 5 (by norm_num) (by norm_num)

/-- Threshold `0.8`. -/
def thrHigh : ℚ := qScore 4 5 (by norm_num) (by norm_num)

/-! ## C7 — classifier determinism -/

/-- C7: `_determine_category` is pure and deterministic — two calls with
identical `(text, technologies)` arguments return the identical
category.  In this embedding the classifier is a pure function of its
two arguments (it reads no other state), so determinism is exactly
congruence. -/
theorem determine_category_deterministic (t₁ t₂ : String) (q₁ q₂ : List String)
    (ht : t₁ = t₂) (hq : q₁ = q₂) :
    determineCategory t₁ q₁ = determineCategory t₂ q₂ := by
  rw [ht, hq]

theorem determine_category_deterministic_witness :
    determineCategory "How do I fix this Python TypeError?" ["Python"]
      = determineCategory "How do I fix this Python TypeError?" ["Python"] :=
  determine_category_deterministic _ _ _ _ rfl rfl

/-! ## C6 — classifier argmax and ties -/

/-- C6 counterexample: on `"code deploy"` the programming and devops
scores tie at the maximum (1 each, all others 0), yet
`_determine_category` returns PROGRAMMING, not OTHER: `max` over the
counts dict keeps the first maximal entry.  This refutes "returns OTHER
whenever two or more categories tie for the maximum score". -/
theorem determine_category_tie_counterexample :
    (categoryCounts "code deploy" []).map Prod.snd = [1, 1, 0, 0, 0, 0]
    ∧ determineCategory "code deploy" [] = InsightCategory.programming
    ∧ InsightCategory.programming ≠ InsightCategory.other := by
  decide

theorem pyMax_cons (hd x : InsightCategory × Nat) (tl : List (InsightCategory × Nat)) :
    pyMaxBySnd hd (x :: tl) = pyMaxBySnd (if hd.2 < x.2 then x else hd) tl := rfl

theorem pyMax_snd_ge (tl : List (InsightCategory × Nat)) :
    ∀ hd, hd.2 ≤ (pyMaxBySnd hd tl).2 := by
  induction tl with
  | nil => intro hd; exact le_rfl
  | cons x tl ih =>
    intro hd
    rw [pyMax_cons]
    by_cases h : hd.2 < x.2
    · rw [if_pos h]; exact le_trans h.le (ih x)
    · rw [if_neg h]; exact ih hd

theorem pyMax_eq_or_lt (tl : List (InsightCategory × Nat)) :
    ∀ hd, pyMaxBySnd hd tl = hd ∨ hd.2 < (pyMaxBySnd hd tl).2 := by
  induction tl with
  | nil => intro hd; exact Or.inl rfl
  | cons x tl ih =>
    intro hd
    rw [pyMax_cons]
    by_cases h : hd.2 < x.2
    · rw [if_pos h]; exact Or.inr (lt_of_lt_of_le h (pyMax_snd_ge tl x))
    · rw [if_neg h]; exact ih hd

theorem pyMax_snd_eq (tl : List (InsightCategory × Nat)) :
    ∀ hd, (pyMaxBySnd hd tl).2 = tl.foldl (fun m x => max m x.2) hd.2 := by
  induction tl with
  | nil => intro hd; rfl
  | cons x tl ih =>
    intro hd
    rw [pyMax_cons, ih]
    have hsel : (if hd.2 < x.2 then x else hd).2 = max hd.2 x.2 := by
      by_cases h : hd.2 < x.2
      · rw [if_pos h, Nat.max_eq_right h.le]
      · rw [if_neg h, Nat.max_eq_left (Nat.le_of_not_lt h)]
    rw [hsel, List.foldl_cons]

/-- Python's `max(items, key=…)` keeps the first item attaining the
maximal key, hence `find?` over the list at that key returns it. -/
theorem pyMax_find (tl : List (InsightCategory × Nat)) :
    ∀ hd, (hd :: tl).find? (fun p => p.2 == (pyMaxBySnd hd tl).2)
      = some (pyMaxBySnd hd tl) := by
  induction tl with
  | nil => intro hd; simp [pyMaxBySnd]
  | cons x tl ih =>
    intro hd
    rw [pyMax_cons]
    by_cases h : hd.2 < x.2
    · rw [if_pos h]
      have hlt : hd.2 < (pyMaxBySnd x tl).2 := lt_of_lt_of_le h (pyMax_snd_ge tl x)
      have hne : (hd.2 == (pyMaxBySnd x tl).2) = false := by
        simp [Nat.ne_of_lt hlt]
      simp only [List.find?_cons, hne]
      exact ih x
    · rw [if_neg h]
      rcases pyMax_eq_or_lt tl hd with heq | hlt
      · rw [heq]
        simp
      · have hne : (hd.2 == (pyMaxBySnd hd tl).2) = false := by
          simp [Nat.ne_of_lt hlt]
        have hnex : (x.2 == (pyMaxBySnd hd tl).2) = false := by
          simp [Nat.ne_of_lt (lt_of_le_of_lt (Nat.le_of_not_lt h) hlt)]
        have htl : tl.find? (fun p => p.2 == (pyMaxBySnd hd tl).2)
            = some (pyMaxBySnd hd tl) := by
          have hih := ih hd
          simpa only [List.find?_cons, hne] using hih
        simp only [List.find?_cons, hne, hnex]
        exact htl

/-- C6 amended: `_determine_category` returns OTHER exactly when every
category's score is zero, and otherwise the **first** category (in the
fixed order programming, devops, design, architecture, database,
testing) attaining the maximal score — in particular the strict
maximizer when one exists, but a tie resolves to the earlier category,
not to OTHER. -/
theorem determine_category_first_argmax (text : String) (techs : List String) :
    determineCategory text techs =
      (if ((categoryCounts text techs).map Prod.snd).foldl max 0 = 0
       then InsightCategory.other
       else (((categoryCounts text techs).find?
           (fun p => p.2 == ((categoryCounts text techs).map Prod.snd).foldl max 0)).map
           Prod.fst).getD InsightCategory.other) := by
  unfold determineCategory
  split
  · next heq => rw [heq]; simp
  · next hd tl heq =>
    rw [heq]
    have hM : ((hd :: tl).map Prod.snd).foldl max 0 = (pyMaxBySnd hd tl).2 := by
      rw [pyMax_snd_eq, List.foldl_map, List.foldl_cons, Nat.zero_max]
    rw [hM]
    by_cases h0 : (pyMaxBySnd hd tl).2 = 0
    · simp [h0]
    · rw [if_neg h0, if_neg h0, pyMax_find tl hd]
      simp

/-! ## C5 — problem/solution confidence and Scenario A -/

/-- C5: every insight emitted by the problem/solution pass for a
qualifying (USER, ASSISTANT) pair has confidence 0.9 when the ASSISTANT
message contains at least one CODE content block and 0.7 otherwise; and
Scenario A (`"How do I fix this Python TypeError?"` answered with text
plus a python code block) yields exactly one PROBLEM_SOLUTION insight
with confidence 0.9 and category PROGRAMMING. -/
theorem problem_solution_confidence_scenario :
    (∀ (cid now : Nat) (u a : Message) (i : Insight),
        pairInsight cid now u a = some i →
          i.confidence_score = if (extractCodeBlocks a).length > 0 then 9/10 else 7/10)
    ∧ (extractProblemSolution 0 convA).map
        (fun i => (i.type, i.category, i.confidence_score))
        = [(InsightType.problem_solution, InsightCategory.programming, 9/10)] := by
  constructor
  · intro cid now u a i h
    simp only [pairInsight] at h
    split_ifs at h with h1 h2 h3 <;>
      first
        | exact Option.noConfusion h
        | (injection h with hr
           subst hr
           first
             | (rw [if_pos h3]; exact conf09_eq)
             | (rw [if_neg h3]; exact conf07_eq))
  · have h : (extractProblemSolution 0 convA).map
        (fun i => (i.type, i.category, i.confidence_score))
        = [(InsightType.problem_solution, InsightCategory.programming, conf09)] := by
      decide
    rw [h, conf09_eq]

theorem problem_solution_confidence_scenario_witness :
    pairInsight 1 0 uA aA = some insightA
    ∧ insightA.confidence_score
        = if (extractCodeBlocks aA).length > 0 then 9/10 else 7/10 :=
  ⟨by decide, problem_solution_confidence_scenario.1 1 0 uA aA insightA (by decide)⟩

/-! ## C4 — confidence monotonicity (code bug) -/

/-- C4: the persisted insight sets are **not** monotone in the
threshold.  `process_conversation` filters candidates by
`confidence_score >= min_confidence_threshold` as claimed, but right
after committing the first fresh insight it evaluates
`insight.content_blocks` — an attribute `Insight` does not have (the
field is `code_blocks`) — so every run aborts with an `AttributeError`
(wrapped in `AnalysisProcessorError`) after persisting exactly one
insight.  On `conv4` (candidates of confidence 0.7 and 0.9) the run at
threshold 0.6 persists only the 0.7-insight while the run at threshold
0.8 persists the 0.9-insight: the set persisted at the higher threshold
is not a subset of the set persisted at the lower one. -/
theorem confidence_monotonicity_code_bug_eval :
    (processConversation 0 thrLow conv4 []).1 = [ips1]
    ∧ (processConversation 0 thrHigh conv4 []).1 = [ips2]
    ∧ ips2 ∉ [ips1]
    ∧ (processConversation 0 thrLow conv4 []).2 = Except.error ()
    ∧ (processConversation 0 thrHigh conv4 []).2 = Except.error ()
    ∧ thrLow < thrHigh := by
  refine ⟨by decide, by decide, by decide, ?_, ?_, by decide⟩
  · exact congrArg Prod.snd (by decide :
      processConversation 0 thrLow conv4 [] = ([ips1], Except.error ()))
  · exact congrArg Prod.snd (by decide :
      processConversation 0 thrHigh conv4 [] = ([ips2], Except.error ()))

/-! ## C10 — `get_insights` filters (code bug) -/

/-- An insight violating every optional filter below. -/
def lowInsight : Insight :=
  ⟨5, InsightType.learning, InsightCategory.other, "Tip", "Body text", [],
   qScore 1 5 (by norm_num) (by norm_num), 0⟩

/-- A second low-confidence insight (to exceed `limit`). -/
def lowInsight2 : Insight :=
  ⟨6, InsightType.learning, InsightCategory.other, "Tip2", "More body", [],
   qScore 3 10 (by norm_num) (by norm_num), 0⟩

/-- C10: `get_insights` does **not** enforce its documented filters.
`Database.get_items` drops every keyword that is not an `Insight`
attribute, which is exactly where `get_insights` puts `min_confidence`
(as `confidence_score_gte`), `days` (as `extracted_at_gte`),
`search_term` (as `content_contains`), and `limit` / `offset` /
`order_by` / `order_desc`.  With two stored insights of confidence
0.2 and 0.3 extracted at time 0, a query with `min_confidence = 0.7`,
`days = 30`, `search_term = "needle"`, `limit = 1`, `offset = 0` at
`now = 1000` returns both insights unchanged: below the confidence
floor, outside the recency window, not containing the search term, and
more than `limit` of them. -/
theorem get_insights_filters_ignored_eval :
    getInsights none none none (some 30) 1 0 (some "needle") conf07 1000
        [lowInsight, lowInsight2]
      = [lowInsight, lowInsight2]
    ∧ lowInsight.confidence_score < conf07
    ∧ conf07 = 7/10
    ∧ containsSub "needle" lowInsight.content = false
    ∧ lowInsight.extracted_at < 1000 - 30
    ∧ 1 < ([lowInsight, lowInsight2] : List Insight).length :=
  ⟨by decide, by decide, conf07_eq, by decide, by decide, by decide⟩

/-! ## C2 — extraction dedup by `(conversation_id, type, title)` -/

theorem storeInsights_result (cands store : List Insight) :
    (storeInsights cands store).1 = store
    ∨ ∃ x, (storeInsights cands store).1 = store ++ [x]
        ∧ (existingInsights x store).isEmpty = true := by
  induction cands with
  | nil => exact Or.inl rfl
  | cons i rest ih =>
    by_cases hd : (existingInsights i store).isEmpty
    · right
      exact ⟨i, by simp [storeInsights, hd], hd⟩
    · simpa [storeInsights, hd] using ih

/-- The probe `db.get_items(Insight, conversation_id=…, type=…, title=…)`
finds exactly the rows with the same `(conversation_id, type, title)`
triple. -/
theorem existingInsights_isEmpty_iff (x : Insight) (store : List Insight) :
    (existingInsights x store).isEmpty = true
      ↔ ∀ j ∈ store,
          ¬(j.conversation_id = x.conversation_id ∧ j.type = x.type ∧ j.title = x.title) := by
  rw [List.isEmpty_iff, existingInsights, getItems, List.filter_eq_nil_iff]
  constructor
  · intro h j hj htriple
    refine h j hj ?_
    simp [insightHasAttr, insightAttrEq, htriple.1, htriple.2.1, htriple.2.2]
  · intro h j hj hall
    refine h j hj ?_
    simp only [insightHasAttr, insightAttrEq] at hall
    simp at hall
    exact ⟨hall.1.symm ▸ rfl, hall.2.1.symm ▸ rfl, hall.2.2.symm ▸ rfl⟩

/-- C2: `process_conversation` never creates an insight row whose
`(conversation_id, type, title)` triple is already stored: every insight
in the result store that was not in the input store has a triple
distinct from every previously stored row (the store is probed by the
triple before each insert and the candidate skipped on a hit) — in
particular a second run over an unchanged conversation adds no
duplicate triple. -/
theorem process_conversation_dedup (now : Nat) (thr : ℚ) (conv : Conversation)
    (store : List Insight) (i : Insight)
    (hi : i ∈ (processConversation now thr conv store).1) (hnew : i ∉ store) :
    ∀ j ∈ store,
      ¬(j.conversation_id = i.conversation_id ∧ j.type = i.type ∧ j.title = i.title) := by
  have hps : (processConversation now thr conv store).1
      = (storeInsights
          ((extractAll now conv).filter (fun k => decide (thr ≤ k.confidence_score)))
          store).1 := rfl
  rw [hps] at hi
  rcases storeInsights_result
      ((extractAll now conv).filter (fun k => decide (thr ≤ k.confidence_score))) store with
    hcase | ⟨x, hx, hemp⟩
  · rw [hcase] at hi
    exact absurd hi hnew
  · rw [hx] at hi
    rcases List.mem_append.mp hi with hin | hone
    · exact absurd hin hnew
    · have hix : i = x := by simpa using hone
      subst hix
      exact (existingInsights_isEmpty_iff i store).mp hemp

theorem process_conversation_dedup_witness :
    ¬(ips1.conversation_id = ips2.conversation_id ∧ ips1.type = ips2.type
      ∧ ips1.title = ips2.title) :=
  process_conversation_dedup 0 thrLow conv4 [ips1] ips2 (by decide) (by decide)
    ips1 (by decide)

/-! ## C3 — failure of one extraction pass -/

/-- A pass raising an exception for every conversation. -/
def passFail : Conversation → Except Unit (List Insight) := fun _ => Except.error ()

/-- A learning insight of confidence 0.8 produced by `passOkL`. -/
def iL : Insight :=
  ⟨3, InsightType.learning, InsightCategory.other, "L", "body", [], conf08, 0⟩

/-- A pass returning one insight above the default threshold. -/
def passOkL : Conversation → Except Unit (List Insight) := fun _ => Except.ok [iL]

/-- A pass returning nothing. -/
def passNil : Conversation → Except Unit (List Insight) := fun _ => Except.ok []

def convE : Conversation := ⟨3, []⟩
def convE2 : Conversation := ⟨4, []⟩

/-- C3 counterexample: all four passes run inside one `try` in
`process_conversation`, so an exception in the first pass drops the
*whole* conversation — the second pass's insight, which is persisted
when the first pass succeeds (middle conjunct), is not persisted
(first conjunct) — and `process_new_conversations` wraps its loop in
one `try` as well, so the remaining conversations of the batch are not
processed either (last conjunct: the store stays empty).  This refutes
"only that pass's output for that conversation is dropped: the other
three passes still run and their surviving insights are still
persisted, and the remaining conversations in the batch are still
processed". -/
theorem pass_failure_counterexample :
    processConversationWith passFail passOkL passNil passNil conf07 convE []
      = ([], Except.error ())
    ∧ processConversationWith passNil passOkL passNil passNil conf07 convE []
      = ([iL], Except.error ())
    ∧ processBatchWith passFail passOkL passNil passNil conf07 [convE, convE2] []
      = ([], Except.error ()) := by
  decide

/-- C3 amended: an exception inside any of the four extraction passes
aborts the processing of that conversation entirely — the store is left
unchanged, no pass's output is persisted — and the error propagates out
of the batch loop, so the conversations after it are not processed
(the batch returns the unchanged store and the error). -/
theorem pass_failure_aborts_conversation_and_batch
    (p1 p2 p3 p4 : Conversation → Except Unit (List Insight)) (thr : ℚ)
    (conv : Conversation) (rest : List Conversation) (store : List Insight) (e : Unit)
    (hfail : (do
        let a ← p1 conv
        let b ← p2 conv
        let c ← p3 conv
        let d ← p4 conv
        Except.ok (a ++ b ++ c ++ d) : Except Unit (List Insight)) = Except.error e) :
    processConversationWith p1 p2 p3 p4 thr conv store = (store, Except.error e)
    ∧ processBatchWith p1 p2 p3 p4 thr (conv :: rest) store = (store, Except.error e) := by
  have h1 : processConversationWith p1 p2 p3 p4 thr conv store = (store, Except.error e) := by
    unfold processConversationWith
    rw [hfail]
  refine ⟨h1, ?_⟩
  simp only [processBatchWith, h1]

theorem pass_failure_aborts_witness :
    processConversationWith passFail passOkL passNil passNil conf07 convE []
      = ([], Except.error ())
    ∧ processBatchWith passFail passOkL passNil passNil conf07 [convE, convE2] []
      = ([], Except.error ()) :=
  pass_failure_aborts_conversation_and_batch passFail passOkL passNil passNil
    conf07 convE [convE2] [] () (by decide)

/-! ## C9 — normalizing a `{"human": …, "ai": …}` blob -/

/-- C9 counterexample: the id of a no-`id` blob is **not** deterministic
across runs — it is `f"cursor_{int(time.time())}_{hash(str(data))}"`,
and both the wall clock and Python's per-process string-hash seed differ
between runs.  Two runs over the identical blob content
`{"human": "Hello", "ai": "World"}`, one with clock 0 / hash 0 and one
with clock 1 / hash 1, derive different ids. -/
theorem normalize_id_counterexample :
    (normalizeHumanAi "Hello" "World" 0 0 0 0).id = "cursor_0_0"
    ∧ (normalizeHumanAi "Hello" "World" 1 1 1 1).id = "cursor_1_1"
    ∧ (normalizeHumanAi "Hello" "World" 0 0 0 0).id
        ≠ (normalizeHumanAi "Hello" "World" 1 1 1 1).id := by
  decide

/-- C9 amended: normalizing a `{"human": …, "ai": …}` blob with no `id`
yields a conversation whose id is derived from the extraction-time
clock reading and the run's string hash (so it differs from run to run),
and exactly two messages — USER with the human text, then ASSISTANT with
the ai text, in that order (the clock readings taken for `start_time`
and `end_time` satisfy `t1 ≤ t2`, and the stable timestamp sort keeps
the USER message first). -/
theorem normalize_human_ai_amended (human ai : String) (t0 : Nat) (h : Int)
    (t1 t2 : Nat) (hle : t1 ≤ t2) :
    (normalizeHumanAi human ai t0 h t1 t2).id
      = "cursor_" ++ toString t0 ++ "_" ++ toString h
    ∧ (normalizeHumanAi human ai t0 h t1 t2).messages
      = [⟨"user", t1, [⟨"text", human, none⟩]⟩,
         ⟨"assistant", t2, [⟨"text", ai, none⟩]⟩] := by
  refine ⟨rfl, ?_⟩
  have hu : normalizeMsgSimple "user" human t1 = ⟨"user", t1, [⟨"text", human, none⟩]⟩ := by
    simp only [normalizeMsgSimple]
    rw [if_pos (by decide : pyLower "user" = "user" ∨ pyLower "user" = "human")]
  have ha : normalizeMsgSimple "assistant" ai t2
      = ⟨"assistant", t2, [⟨"text", ai, none⟩]⟩ := by
    simp only [normalizeMsgSimple]
    rw [if_neg (by decide : ¬(pyLower "assistant" = "user" ∨ pyLower "assistant" = "human")),
      if_pos (by decide : pyLower "assistant" = "assistant"
        ∨ pyLower "assistant" = "ai" ∨ pyLower "assistant" = "bot")]
  show sortByTs [normalizeMsgSimple "user" human t1, normalizeMsgSimple "assistant" ai t2] = _
  rw [hu, ha]
  simp only [sortByTs, insertByTs]
  rw [if_neg (by omega : ¬ t2 < t1)]

theorem normalize_human_ai_witness :
    (normalizeHumanAi "Hi" "Yo" 2 3 4 5).id = "cursor_" ++ toString 2 ++ "_" ++ toString (3 : Int)
    ∧ (normalizeHumanAi "Hi" "Yo" 2 3 4 5).messages
      = [⟨"user", 4, [⟨"text", "Hi", none⟩]⟩, ⟨"assistant", 5, [⟨"text", "Yo", none⟩]⟩] :=
  normalize_human_ai_amended "Hi" "Yo" 2 3 4 5 (by decide)

/-! ## C1 / C8 — store lemmas for `extract_conversations` -/

theorem convHits_isEmpty_iff (s : DBStore) (sid : String) :
    (convHits s sid).isEmpty = true
      ↔ (ConversationSource.cursor, sid) ∉ s.convs.map convKey := by
  rw [convHits, List.isEmpty_iff, List.filter_eq_nil_iff]
  simp only [decide_eq_true_eq, List.mem_map, convKey, Prod.mk.injEq, not_exists, not_and]

/-- On a hit the loop reuses the existing record: nothing is written. -/
theorem processBlob_hit (s : DBStore) (b : NormConv)
    (hmem : (ConversationSource.cursor, b.id) ∈ s.convs.map convKey) :
    processBlob s b = (s, []) := by
  simp only [processBlob]
  rw [if_neg (fun hempty => (convHits_isEmpty_iff s b.id).mp hempty hmem)]

/-- On a miss the conversation row is committed first, then (if any) the
message rows, each in its own transaction. -/
theorem processBlob_miss (s : DBStore) (b : NormConv)
    (hmiss : (ConversationSource.cursor, b.id) ∉ s.convs.map convKey)
    (hmsgs : b.messages ≠ []) :
    processBlob s b =
      (⟨s.convs ++ [⟨s.nextId, ConversationSource.cursor, b.id, b.title,
          b.start_time, some b.end_time⟩],
        s.msgs ++ b.messages.map (toMsgRow s.nextId), s.nextId + 1⟩,
       [⟨s.convs ++ [⟨s.nextId, ConversationSource.cursor, b.id, b.title,
           b.start_time, some b.end_time⟩], s.msgs, s.nextId + 1⟩,
        ⟨s.convs ++ [⟨s.nextId, ConversationSource.cursor, b.id, b.title,
           b.start_time, some b.end_time⟩],
         s.msgs ++ b.messages.map (toMsgRow s.nextId), s.nextId + 1⟩]) := by
  simp only [processBlob]
  rw [if_pos ((convHits_isEmpty_iff s b.id).mpr hmiss),
    if_neg (by simp [List.isEmpty_iff, hmsgs])]

/-- Whatever one blob does to the store, the conversation key of that
blob is present afterwards. -/
theorem processBlob_key_present (s : DBStore) (b : NormConv) :
    (ConversationSource.cursor, b.id) ∈ (processBlob s b).1.convs.map convKey := by
  by_cases hmem : (ConversationSource.cursor, b.id) ∈ s.convs.map convKey
  · rw [processBlob_hit s b hmem]
    exact hmem
  · simp only [processBlob]
    rw [if_pos ((convHits_isEmpty_iff s b.id).mpr hmem)]
    split
    · simp [convKey]
    · simp [convKey]

/-- Stored conversations are never removed or rewritten. -/
theorem processBlob_mono (s : DBStore) (b : NormConv)
    (k : ConversationSource × String) (hk : k ∈ s.convs.map convKey) :
    k ∈ (processBlob s b).1.convs.map convKey := by
  simp only [processBlob]
  split
  · split
    · simpa using Or.inl hk
    · simpa using Or.inl hk
  · exact hk

/-- One blob preserves at-most-one-conversation-per-key. -/
theorem processBlob_uniq (s : DBStore) (b : NormConv) (h : uniqKeys s) :
    uniqKeys (processBlob s b).1 := by
  by_cases hmem : (ConversationSource.cursor, b.id) ∈ s.convs.map convKey
  · rw [processBlob_hit s b hmem]
    exact h
  · have happ : ((s.convs ++ [(⟨s.nextId, ConversationSource.cursor, b.id, b.title,
        b.start_time, some b.end_time⟩ : ConvRow)]).map convKey).Nodup := by
      rw [List.map_append, List.nodup_append]
      refine ⟨h, List.nodup_singleton _, ?_⟩
      intro k hk hk'
      simp only [List.map_cons, List.map_nil, List.mem_singleton] at hk'
      subst hk'
      exact hmem hk
    simp only [processBlob]
    rw [if_pos ((convHits_isEmpty_iff s b.id).mpr hmem)]
    unfold uniqKeys
    split
    · exact happ
    · exact happ

theorem processBlobs_key_mono (bs : List NormConv) :
    ∀ (s : DBStore) (k : ConversationSource × String), k ∈ s.convs.map convKey →
      k ∈ (processBlobs s bs).1.convs.map convKey := by
  induction bs with
  | nil => intro s k hk; exact hk
  | cons b rest ih =>
    intro s k hk
    exact ih (processBlob s b).1 k (processBlob_mono s b k hk)

theorem processBlobs_key_present (bs : List NormConv) :
    ∀ (s : DBStore) (b : NormConv), b ∈ bs →
      (ConversationSource.cursor, b.id) ∈ (processBlobs s bs).1.convs.map convKey := by
  induction bs with
  | nil => intro s b hb; exact absurd hb (List.not_mem_nil b)
  | cons b0 rest ih =>
    intro s b hb
    rcases List.mem_cons.mp hb with hb0 | hbrest
    · subst hb0
      exact processBlobs_key_mono rest (processBlob s b).1 _ (processBlob_key_present s b)
    · exact ih (processBlob s b0).1 b hbrest

theorem processBlobs_uniq (bs : List NormConv) :
    ∀ s : DBStore, uniqKeys s → uniqKeys (processBlobs s bs).1 := by
  induction bs with
  | nil => intro s h; exact h
  | cons b rest ih => intro s h; exact ih (processBlob s b).1 (processBlob_uniq s b h)

/-- When every blob key is already stored, a whole ingestion run is a
no-op (every lookup hits; first write wins). -/
theorem processBlobs_all_hit (bs : List NormConv) :
    ∀ s : DBStore,
      (∀ b ∈ bs, (ConversationSource.cursor, b.id) ∈ s.convs.map convKey) →
      processBlobs s bs = (s, []) := by
  induction bs with
  | nil => intro s _; rfl
  | cons b rest ih =>
    intro s hall
    have hhit := processBlob_hit s b (hall b (List.mem_cons_self b rest))
    show (let r1 := processBlob s b
          let r2 := processBlobs r1.1 rest
          (r2.1, r1.2 ++ r2.2)) = (s, [])
    rw [hhit]
    have hrest := ih s (fun b' hb' => hall b' (List.mem_cons_of_mem b hb'))
    simp [hrest]

/-- A `Nodup`-keyed store has exactly one conversation carrying a key it
contains. -/
theorem countKey_eq_one (k : ConversationSource × String) (l : List ConvRow)
    (hnd : (l.map convKey).Nodup) (hmem : k ∈ l.map convKey) :
    l.countP (fun c => decide (convKey c = k)) = 1 := by
  induction l with
  | nil => simp at hmem
  | cons c rest ih =>
    rw [List.map_cons, List.nodup_cons] at hnd
    rw [List.map_cons, List.mem_cons] at hmem
    by_cases hc : convKey c = k
    · rw [List.countP_cons_of_pos _ _ (by simp [hc])]
      have hzero : rest.countP (fun c => decide (convKey c = k)) = 0 := by
        rw [List.countP_eq_zero]
        intro a ha hpa
        simp only [decide_eq_true_eq] at hpa
        exact hnd.1 (hc ▸ hpa ▸ List.mem_map_of_mem convKey ha)
      rw [hzero]
    · rw [List.countP_cons_of_neg _ _ (by simp [hc])]
      refine ih hnd.2 ?_
      rcases hmem with h1 | h2
      · exact absurd h1.symm hc
      · exact h2

/-- C1: with at-most-one-conversation-per-`(source, sourceId)` holding of
the store, a second ingestion of the same normalized raw conversations
changes nothing — every `(CURSOR, sourceId)` probe hits and the existing
record, messages included, is returned unchanged (first write wins) —
the uniqueness invariant is preserved, and each ingested blob ends up
with exactly one persisted conversation carrying its key. -/
theorem ingest_idempotent_unique (bs : List NormConv) (s : DBStore)
    (huniq : uniqKeys s) :
    ingest bs (ingest bs s) = ingest bs s
    ∧ uniqKeys (ingest bs s)
    ∧ ∀ b ∈ bs,
        (ingest bs s).convs.countP
          (fun c => decide (convKey c = (ConversationSource.cursor, b.id))) = 1 := by
  have huniq1 : uniqKeys (ingest bs s) := processBlobs_uniq bs s huniq
  have hpresent : ∀ b ∈ bs,
      (ConversationSource.cursor, b.id) ∈ (ingest bs s).convs.map convKey :=
    fun b hb => processBlobs_key_present bs s b hb
  refine ⟨?_, huniq1, ?_⟩
  · show (processBlobs (ingest bs s) bs).1 = ingest bs s
    rw [processBlobs_all_hit bs (ingest bs s) hpresent]
  · intro b hb
    exact countKey_eq_one _ _ huniq1 (hpresent b hb)

/-- A normalized conversation with one user message. -/
def blobA : NormConv := ⟨"abc", "T", 0, 1, [⟨"user", 0, [⟨"text", "hi", none⟩]⟩]⟩

/-- The empty store. -/
def dbEmpty : DBStore := ⟨[], [], 1⟩

theorem ingest_idempotent_unique_witness :
    ingest [blobA] (ingest [blobA] dbEmpty) = ingest [blobA] dbEmpty
    ∧ uniqKeys (ingest [blobA] dbEmpty)
    ∧ (ingest [blobA] dbEmpty).convs.countP
        (fun c => decide (convKey c = (ConversationSource.cursor, blobA.id))) = 1 := by
  obtain ⟨h1, h2, h3⟩ := ingest_idempotent_unique [blobA] dbEmpty
    (show (dbEmpty.convs.map convKey).Nodup by decide)
  exact ⟨h1, h2, h3 blobA (by decide)⟩


/-! ## C8 — conversation and messages are committed separately -/

/-- The conversation row committed for a missed blob. -/
def newRow (s : DBStore) (b : NormConv) : ConvRow :=
  ⟨s.nextId, ConversationSource.cursor, b.id, b.title, b.start_time, some b.end_time⟩

/-- The store after `db.add_item(conversation)` commits. -/
def stateAfterConvCommit (s : DBStore) (b : NormConv) : DBStore :=
  ⟨s.convs ++ [newRow s b], s.msgs, s.nextId + 1⟩

/-- The store after `db.add_items(messages)` commits. -/
def stateAfterMsgCommit (s : DBStore) (b : NormConv) : DBStore :=
  ⟨s.convs ++ [newRow s b], s.msgs ++ b.messages.map (toMsgRow s.nextId), s.nextId + 1⟩

/-- The first conversation row committed over the empty store. -/
def rowA : ConvRow := ⟨1, ConversationSource.cursor, "abc", "T", 0, some 1⟩

/-- Its single message row. -/
def msgRowA : MsgRow := ⟨1, MessageRole.user, 0, [⟨ContentType.text, "hi", none⟩]⟩

def s1val : DBStore := ⟨[rowA], [], 2⟩
def s2val : DBStore := ⟨[rowA], [msgRowA], 2⟩

/-- C8 counterexample: ingesting one fresh blob with one message over
the empty store commits **two** observable states, and in the first of
them the conversation row exists with zero visible messages — the
Conversation/Message pair is not persisted as one atomic unit.  This
refutes "at no observable point does a stored Conversation exist with
zero messages visible". -/
theorem two_transaction_counterexample :
    ingestTrace [blobA] dbEmpty = [s1val, s2val]
    ∧ rowA ∈ s1val.convs
    ∧ msgsOf s1val rowA.id = [] := by
  decide

/-- C8 amended: on a `(source, sourceId)` miss the Conversation row is
committed first (`db.add_item`) and its Message rows afterwards
(`db.add_items`), in two separate transactions: between the two commits
the conversation is observable with zero messages; after the second
commit it carries exactly the blob's messages; and messages are never
stored without their parent conversation. -/
theorem two_transaction_persistence (s : DBStore) (b : NormConv)
    (hmiss : (ConversationSource.cursor, b.id) ∉ s.convs.map convKey)
    (hmsgs : b.messages ≠ [])
    (hfresh : ∀ m ∈ s.msgs, m.conversation_id ≠ s.nextId)
    (horph : ∀ m ∈ s.msgs, ∃ c ∈ s.convs, c.id = m.conversation_id) :
    processBlob s b
      = (stateAfterMsgCommit s b, [stateAfterConvCommit s b, stateAfterMsgCommit s b])
    ∧ newRow s b ∈ (stateAfterConvCommit s b).convs
    ∧ msgsOf (stateAfterConvCommit s b) (newRow s b).id = []
    ∧ msgsOf (stateAfterMsgCommit s b) (newRow s b).id = b.messages.map (toMsgRow s.nextId)
    ∧ b.messages.map (toMsgRow s.nextId) ≠ []
    ∧ ∀ m ∈ (stateAfterMsgCommit s b).msgs,
        ∃ c ∈ (stateAfterMsgCommit s b).convs, c.id = m.conversation_id := by
  have hfilter : s.msgs.filter (fun m => m.conversation_id == s.nextId) = [] := by
    rw [List.filter_eq_nil_iff]
    intro m hm
    simpa using hfresh m hm
  refine ⟨processBlob_miss s b hmiss hmsgs, ?_, ?_, ?_, ?_, ?_⟩
  · simp [stateAfterConvCommit]
  · simp only [msgsOf, stateAfterConvCommit, newRow]
    exact hfilter
  · simp only [msgsOf, stateAfterMsgCommit, newRow]
    rw [List.filter_append, hfilter, List.nil_append, List.filter_eq_self]
    intro m hm
    obtain ⟨nm, _, rfl⟩ := List.mem_map.mp hm
    simp [toMsgRow]
  · simp [hmsgs]
  · intro m hm
    simp only [stateAfterMsgCommit, List.mem_append] at hm
    rcases hm with hold | hnew
    · obtain ⟨c, hc, hcid⟩ := horph m hold
      exact ⟨c, by simp [stateAfterMsgCommit, hc], hcid⟩
    · obtain ⟨nm, _, rfl⟩ := List.mem_map.mp hnew
      refine ⟨newRow s b, by simp [stateAfterMsgCommit], ?_⟩
      simp [toMsgRow, newRow]

theorem two_transaction_persistence_witness :
    processBlob dbEmpty blobA = (s2val, [s1val, s2val])
    ∧ msgsOf s1val rowA.id = []
    ∧ msgsOf s2val rowA.id = [msgRowA] := by
  obtain ⟨h1, _, h3, h4, _, _⟩ := two_transaction_persistence dbEmpty blobA
    (by decide) (by decide) (by simp [dbEmpty]) (by simp [dbEmpty])
  exact ⟨h1, h3, h4⟩

end DevJourney
